import Mathlib

/-!
Verification of `src/lib/platform_file_features.py` (predict_platform).

The per-file feature extractor `get_file_features` and the directory
aggregator `get_directory_features` are embedded shallowly.  Python numbers
are modelled by `ℚ`; exceptions by `Except Err`.  The three real-valued
external operations that the claims never depend on numerically — the Phred
score-to-probability map `10 ^ (-s / 10)`, the square root inside
`statistics.stdev`, and `scipy.stats.skew` — are abstracted as the fields of
an `ExternalFuns` parameter, so every theorem is proved for all of them.
-/

namespace PredictPlatform

/-- Python exception classes reachable from the embedded code. -/
inductive Err where
  | zeroDivision
  | valueError
  | statisticsError
  | offsetError
  | negativeScore
  | indexError
deriving DecidableEq, Repr

instance {ε α : Type} [DecidableEq ε] [DecidableEq α] : DecidableEq (Except ε α) := fun x y =>
  match x, y with
  | .error a, .error b =>
    if h : a = b then .isTrue (by rw [h]) else .isFalse (by simp [h])
  | .error _, .ok _ => .isFalse (by simp)
  | .ok _, .error _ => .isFalse (by simp)
  | .ok a, .ok b =>
    if h : a = b then .isTrue (by rw [h]) else .isFalse (by simp [h])

/-- One FASTQ record as yielded by `SeqReader`: a 4-tuple unpacked by the
source as `_, read, qual, _`. -/
structure Record where
  rid : String
  read : String
  qual : String
  extra : String
deriving DecidableEq, Repr

/-- The real-valued external collaborators, abstracted as parameters:
`prob s` stands for the error probability `10 ^ (-s / 10)` of a Phred score
`s` (an irrational number), `sqrt` for the square root taken by
`statistics.stdev`, and `skew` for `scipy.stats.skew` (which never raises on
the inputs reached here; for degenerate inputs it returns NaN).  All
theorems below hold for every instantiation. -/
structure ExternalFuns where
  prob : Nat → ℚ
  sqrt : ℚ → ℚ
  skew : List Nat → ℚ

/-- The two standard Phred offsets recognised by the decoder (spec §4.1,
glossary: "commonly 33 or 64"), in increasing order. -/
def standardOffsets : List Nat := [33, 64]

/-- Modelled from the spec: `get_offset` of `platform_features` (that module
is not under `src/`).  Spec §4.1: returns "the minimal offset under which
all observed characters decode to valid, non-negative Phred scores"; if no
standard offset is consistent, this is a surfaced data-quality error. -/
def get_offset (qual : String) : Except Err Nat :=
  match standardOffsets.find? (fun off => qual.toList.all (fun c => off ≤ c.toNat)) with
  | some off => .ok off
  | none => .error .offsetError

/-- Modelled from the spec: `transform_phred_to_prob` of `platform_features`
(not under `src/`).  Spec §4.1: "Phred score = ordinal(qualityChar) −
offset; error probability = 10^(−score/10).  Must not accept a negative
resulting score (treat as an error condition)."  The irrational map
`10^(−s/10)` is the abstract parameter `E.prob`. -/
def transform_phred_to_prob (E : ExternalFuns) (c : Char) (offset : Nat) : Except Err ℚ :=
  if c.toNat < offset then .error .negativeScore
  else .ok (E.prob (c.toNat - offset))

/-- `list(map(lambda x: transform_phred_to_prob(x, offset=offset) * 100, qual_ascii))`
(line 34): the list is materialised left to right and the first exception
propagates. -/
def mapProbs (E : ExternalFuns) (offset : Nat) : List Char → Except Err (List ℚ)
  | [] => .ok []
  | c :: cs =>
    match transform_phred_to_prob E c offset with
    | .error e => .error e
    | .ok p =>
      match mapProbs E offset cs with
      | .error e => .error e
      | .ok ps => .ok (p * 100 :: ps)

/-- The inner `get_qual_features` (lines 33–41): per-read average, min and
max of the scaled error probabilities.  On an empty list Python's
`sum(..)/len(..)` (evaluated first in the dict literal) raises
`ZeroDivisionError`. -/
def get_qual_features (E : ExternalFuns) (offset : Nat) (qual : String) :
    Except Err (ℚ × ℚ × ℚ) :=
  match mapProbs E offset qual.toList with
  | .error e => .error e
  | .ok probs =>
    if probs.length = 0 then .error .zeroDivision
    else
      match probs.min?, probs.max? with
      | some mn, some mx => .ok (probs.sum / probs.length, mn, mx)
      | _, _ => .error .valueError

/-- The mutable loop state of `get_file_features` (lines 44–51): position
counter, contributing-read count, sticky encoding offset, the length
accumulator and the three quality accumulators of `qual_array`. -/
structure ExtractState where
  position : Nat
  count : Nat
  offset : Nat
  lengths : List Nat
  qa : List ℚ
  qi : List ℚ
  qx : List ℚ
deriving DecidableEq, Repr

/-- The state before the first record: `position = 0`, `count = 0`,
`offset = 0`, all accumulators empty. -/
def initState : ExtractState := ⟨0, 0, 0, [], [], [], []⟩

/-- Lines 62–63: `if not offset: offset = get_offset(qual)` — the sticky
offset is computed only while it is still the initial `0`. -/
def stickyOffset (off : Nat) (qual : String) : Except Err Nat :=
  if off = 0 then get_offset qual else .ok off

/-- The `for record in reader` loop of `get_file_features` (lines 52–68).
Besides the final state it returns the records the iterator never yielded
(on `break` the current record has already been consumed).  The window
bounds `x`, `y` are the normalised ones. -/
def processRecords (E : ExternalFuns) (x y : Nat) :
    List Record → ExtractState → Except Err (ExtractState × List Record)
  | [], st => .ok (st, [])
  | r :: rs, st =>
    if st.position + 1 > y then .ok ({ st with position := st.position + 1 }, rs)
    else if r.qual.length = 0 ∨ st.position + 1 < x then
      processRecords E x y rs { st with position := st.position + 1 }
    else
      match stickyOffset st.offset r.qual with
      | .error e => .error e
      | .ok off =>
        match get_qual_features E off r.qual with
        | .error e => .error e
        | .ok q =>
          processRecords E x y rs
            { st with
                position := st.position + 1
                count := st.count + 1
                lengths := st.lengths ++ [r.read.length]
                offset := off
                qa := st.qa ++ [q.1]
                qi := st.qi ++ [q.2.1]
                qx := st.qx ++ [q.2.2] }

/-- Window normalisation (lines 45–48): `if x and y and y < x: x, y = y, x`. -/
def normWindow (p : Nat × Nat) : Nat × Nat :=
  if p.1 ≠ 0 ∧ p.2 ≠ 0 ∧ p.2 < p.1 then (p.2, p.1) else p

/-- Python `sum(l) / len(l)`: raises `ZeroDivisionError` on an empty list. -/
def pymean (l : List ℚ) : Except Err ℚ :=
  if l.length = 0 then .error .zeroDivision else .ok (l.sum / l.length)

/-- Python `min(l)`: raises `ValueError` on an empty list. -/
def pymin (l : List Nat) : Except Err Nat :=
  match l.min? with
  | some m => .ok m
  | none => .error .valueError

/-- Python `max(l)`: raises `ValueError` on an empty list. -/
def pymax (l : List Nat) : Except Err Nat :=
  match l.max? with
  | some m => .ok m
  | none => .error .valueError

/-- A stable insertion of one element into a sorted list, used to model
Python's `sorted`. -/
def insertSorted (a : Nat) : List Nat → List Nat
  | [] => [a]
  | b :: bs => if a ≤ b then a :: b :: bs else b :: insertSorted a bs

/-- A sort of the data, modelling Python's `sorted`. -/
def pysorted : List Nat → List Nat
  | [] => []
  | a :: as => insertSorted a (pysorted as)

/-- Modelled from the spec: Python's `statistics.median` (standard library,
not under `src/`); spec §4.2: "statistical median (average of two middle
values if even count)"; raises `StatisticsError` on no data. -/
def pymedian (l : List Nat) : Except Err ℚ :=
  if l.length = 0 then .error .statisticsError
  else if l.length % 2 = 1 then .ok (((pysorted l).getD (l.length / 2) 0 : Nat) : ℚ)
  else .ok ((((pysorted l).getD (l.length / 2 - 1) 0 : Nat) +
             ((pysorted l).getD (l.length / 2) 0 : Nat) : ℚ) / 2)

/-- Modelled from the spec: the variance inside Python's
`statistics.stdev` (standard library, not under `src/`); spec §4.2:
"sample standard deviation (Bessel-corrected, divisor n−1); fails with a
DivisionError-class condition if fewer than 2 contributing reads".
CPython computes, in exact fraction arithmetic, the sum of squared
deviations from the mean with a rounding-correction term
`(Σ(x−c))²/n`, then divides by `n − 1`. -/
def pyVariance (xs : List ℚ) : Except Err ℚ :=
  if xs.length < 2 then .error .statisticsError
  else
    .ok ((((xs.map (fun v => (v - xs.sum / xs.length) ^ 2)).sum) -
          ((xs.map (fun v => v - xs.sum / xs.length)).sum) ^ 2 / xs.length) /
         (xs.length - 1))

/-- `statistics.stdev(lengths)` (line 79): the square root of the sample
variance, the root abstracted as `E.sqrt`. -/
def pyStdev (E : ExternalFuns) (xs : List Nat) : Except Err ℚ :=
  match pyVariance (xs.map (fun (n : Nat) => (n : ℚ))) with
  | .error e => .error e
  | .ok v => .ok (E.sqrt v)

/-- The closed-form Bessel-corrected sample variance of the claim: the sum
of squared deviations from the mean divided by `n − 1`.  The claimed sample
standard deviation is its square root. -/
def sampleVarianceClosed (xs : List ℚ) : ℚ :=
  ((xs.map (fun v => (v - xs.sum / xs.length) ^ 2)).sum) / (xs.length - 1)

/-- Line 69: `qual_avgs = {key: sum(qual_array[key]) / len(qual_array[key]) ...}`,
keys in insertion order `avg_avg_phred`, `avg_min_phred`, `avg_max_phred`. -/
def qualAvgs (st : ExtractState) : Except Err (ℚ × ℚ × ℚ) :=
  match pymean st.qa with
  | .error e => .error e
  | .ok a =>
    match pymean st.qi with
    | .error e => .error e
    | .ok i =>
      match pymean st.qx with
      | .error e => .error e
      | .ok m => .ok (a, i, m)

/-- The returned list (lines 74–84), elements evaluated top to bottom:
mean, min, max and median of the lengths, then `stdev`, then `skew`
(which never raises), then the three quality averages. -/
def featureList (E : ExternalFuns) (st : ExtractState) (aa ai ax : ℚ) :
    Except Err (List ℚ) :=
  match pymean (st.lengths.map (fun (n : Nat) => (n : ℚ))) with
  | .error e => .error e
  | .ok m =>
    match pymin st.lengths with
    | .error e => .error e
    | .ok mn =>
      match pymax st.lengths with
      | .error e => .error e
      | .ok mx =>
        match pymedian st.lengths with
        | .error e => .error e
        | .ok md =>
          match pyStdev E st.lengths with
          | .error e => .error e
          | .ok sd =>
            .ok [m, (mn : ℚ), (mx : ℚ), md, sd, E.skew st.lengths, aa, ai, ax]

/-- The record loop of `get_file_features` run from the initial state with
the normalised window. -/
def runLoop (E : ExternalFuns) (records : List Record) (positions : Nat × Nat) :
    Except Err (ExtractState × List Record) :=
  processRecords E (normWindow positions).1 (normWindow positions).2 records initState

/-- `get_file_features` (lines 32–84).  The second component records
whether `reader.close()` (line 73) executed: it is reached only after the
quality averages of line 69 succeed; an exception raised earlier escapes
with the reader still open, one raised later (the `stdev` of line 79)
escapes with it closed. -/
def get_file_features (E : ExternalFuns) (records : List Record)
    (positions : Nat × Nat) : Except Err (List ℚ × Nat) × Bool :=
  match runLoop E records positions with
  | .error e => (.error e, false)
  | .ok (st, _) =>
    match qualAvgs st with
    | .error e => (.error e, false)
    | .ok (aa, ai, ax) =>
      match featureList E st aa ai ax with
      | .error e => (.error e, true)
      | .ok fv => (.ok (fv, st.count), true)

/-- The fixed feature-name header (lines 19–29). -/
def HEADER : List String :=
  ["avg_length", "min_length", "max_length", "median_length", "stddev_length",
   "skew_length", "avg_avg_phred", "avg_min_phred", "avg_max_phred"]

/-- The header row written by lines 95–100: the feature names, `label`, and
`accession_number` exactly when `srr` (and the header toggle) is set. -/
def headerRow (srr : Bool) : List String :=
  HEADER ++ ["label"] ++ (if srr then ["accession_number"] else [])

/-- Lines 107–110: `labels = filename.split(".")`, append `labels[1]` (the
platform label) and then `labels[0]` (the accession label) to the feature
values, and render every cell with `str`. -/
def fileRow (filename : String) (fv : List ℚ) : Except Err (List String) :=
  match (filename.splitOn ".")[1]?, (filename.splitOn ".")[0]? with
  | some platform, some accession => .ok (fv.map toString ++ [platform, accession])
  | _, _ => .error .indexError

/-- `get_directory_features` (lines 87–112) restricted to its data rows:
the directory listing is a list of (filename, records) pairs; non-`.fastq`
names are skipped, each `.fastq` file is extracted and becomes one row, and
any exception propagates (there is no per-file handler).  Returns the
processed-file count and the rows in listing order.  Note that `srr` does
not influence the data rows, only the header (`headerRow`). -/
def get_directory_features (E : ExternalFuns) (positions : Nat × Nat) (srr : Bool) :
    List (String × List Record) → Except Err (Nat × List (List String))
  | [] => .ok (0, [])
  | (fname, recs) :: rest =>
    if fname.endsWith ".fastq" then
      match (get_file_features E recs positions).1 with
      | .error e => .error e
      | .ok (fv, _) =>
        match fileRow fname fv with
        | .error e => .error e
        | .ok row =>
          match get_directory_features E positions srr rest with
          | .error e => .error e
          | .ok (c, rows) => .ok (c + 1, row :: rows)
    else get_directory_features E positions srr rest

/-- The quality string of the first record the loop would accumulate:
first record whose 1-based position (starting above `pos`) is within the
window and whose quality is non-empty. -/
def firstContribQual (x y : Nat) : Nat → List Record → Option String
  | _, [] => none
  | pos, r :: rs =>
    if pos + 1 > y then none
    else if r.qual.length = 0 ∨ pos + 1 < x then firstContribQual x y (pos + 1) rs
    else some r.qual

/-- A concrete instantiation of the abstract external functions, used only
to evaluate the model on concrete inputs. -/
def E0 : ExternalFuns :=
  ⟨fun s => 1 / ((s : ℚ) + 1), fun q => q, fun _ => 0⟩

/-- A concrete record: 4 bases, offset-33 quality characters. -/
def rA : Record := ⟨"r1", "ACGT", "IIII", ""⟩

/-- A concrete record: 5 bases, offset-33 quality characters. -/
def rB : Record := ⟨"r2", "ACGTA", "IIIII", ""⟩

/-- A concrete record: 1 base, one offset-33 quality character. -/
def rC : Record := ⟨"r3", "A", "I", ""⟩

theorem get_offset_mem (q : String) (o : Nat) (h : get_offset q = .ok o) :
    o = 33 ∨ o = 64 := by
  unfold get_offset at h
  rcases hf : standardOffsets.find?
      (fun off => q.toList.all (fun c => off ≤ c.toNat)) with _ | off
  · rw [hf] at h
    exact absurd h (by simp)
  · rw [hf] at h
    have hmem := List.mem_of_find?_eq_some hf
    simp only [Except.ok.injEq] at h
    subst h
    simpa [standardOffsets] using hmem

theorem get_offset_ne_zero (q : String) (o : Nat) (h : get_offset q = .ok o) :
    o ≠ 0 := by
  rcases get_offset_mem q o h with h1 | h1 <;> omega

theorem pymean_ok (l : List ℚ) (h : l.length ≠ 0) :
    pymean l = .ok (l.sum / l.length) := by
  simp [pymean, h]

theorem pymin_ok (l : List Nat) (h : l.length ≠ 0) : ∃ m, pymin l = .ok m := by
  cases l with
  | nil => simp at h
  | cons a as => exact ⟨_, rfl⟩

theorem pymax_ok (l : List Nat) (h : l.length ≠ 0) : ∃ m, pymax l = .ok m := by
  cases l with
  | nil => simp at h
  | cons a as => exact ⟨_, rfl⟩

theorem pymedian_ok (l : List Nat) (h : l.length ≠ 0) : ∃ q, pymedian l = .ok q := by
  unfold pymedian
  rw [if_neg h]
  by_cases hodd : l.length % 2 = 1
  · rw [if_pos hodd]
    exact ⟨_, rfl⟩
  · rw [if_neg hodd]
    exact ⟨_, rfl⟩

theorem stickyOffset_of_ne (off : Nat) (qual : String) (h : off ≠ 0) :
    stickyOffset off qual = .ok off := if_neg h

theorem stickyOffset_ne_zero (off o : Nat) (q : String)
    (h : stickyOffset off q = .ok o) : o ≠ 0 := by
  unfold stickyOffset at h
  split at h
  · exact get_offset_ne_zero _ _ h
  · rename_i hne
    injection h with h
    subst h
    exact hne

/-- The invariant of the record loop: the count of contributing reads equals
the number of entries of the length accumulator and of each of the three
quality accumulators.  It is preserved by any successful run of the loop. -/
theorem processRecords_inv (E : ExternalFuns) (x y : Nat) :
    ∀ (records : List Record) (st st' : ExtractState) (rest : List Record),
      processRecords E x y records st = .ok (st', rest) →
      st.count = st.lengths.length → st.count = st.qa.length →
      st.count = st.qi.length → st.count = st.qx.length →
      st'.count = st'.lengths.length ∧ st'.count = st'.qa.length ∧
        st'.count = st'.qi.length ∧ st'.count = st'.qx.length := by
  intro records
  induction records with
  | nil =>
    intro st st' rest h h1 h2 h3 h4
    simp only [processRecords, Except.ok.injEq, Prod.mk.injEq] at h
    obtain ⟨rfl, rfl⟩ := h
    exact ⟨h1, h2, h3, h4⟩
  | cons r rs ih =>
    intro st st' rest h h1 h2 h3 h4
    simp only [processRecords] at h
    split at h
    · simp only [Except.ok.injEq, Prod.mk.injEq] at h
      obtain ⟨rfl, rfl⟩ := h
      exact ⟨h1, h2, h3, h4⟩
    · split at h
      · refine ih _ _ _ h ?_ ?_ ?_ ?_
        · exact h1
        · exact h2
        · exact h3
        · exact h4
      · split at h
        · exact absurd h (by simp)
        · split at h
          · exact absurd h (by simp)
          · refine ih _ _ _ h ?_ ?_ ?_ ?_ <;>
              simp only [List.length_append, List.length_cons, List.length_nil] <;>
              omega

/-- Once the sticky offset is nonzero, a successful continuation of the
loop never changes it. -/
theorem processRecords_offset_mono (E : ExternalFuns) (x y : Nat) :
    ∀ (records : List Record) (st st' : ExtractState) (rest : List Record),
      processRecords E x y records st = .ok (st', rest) →
      st.offset ≠ 0 → st'.offset = st.offset := by
  intro records
  induction records with
  | nil =>
    intro st st' rest h h0
    simp only [processRecords, Except.ok.injEq, Prod.mk.injEq] at h
    obtain ⟨rfl, rfl⟩ := h
    rfl
  | cons r rs ih =>
    intro st st' rest h h0
    simp only [processRecords] at h
    split at h
    · simp only [Except.ok.injEq, Prod.mk.injEq] at h
      obtain ⟨rfl, rfl⟩ := h
      rfl
    · split at h
      · have H := ih _ _ _ h h0
        exact H
      · split at h
        · exact absurd h (by simp)
        · rename_i off heq
          rw [stickyOffset_of_ne _ _ h0] at heq
          injection heq with heq
          subst heq
          split at h
          · exact absurd h (by simp)
          · have H := ih _ _ _ h h0
            exact H

/-- Starting from a zero offset, a successful run of the loop ends with the
offset computed by `get_offset` on the quality of the first contributing
record, and with a zero offset when no record contributes. -/
theorem processRecords_offset_of_zero (E : ExternalFuns) (x y : Nat) :
    ∀ (records : List Record) (st st' : ExtractState) (rest : List Record),
      processRecords E x y records st = .ok (st', rest) →
      st.offset = 0 →
      (match firstContribQual x y st.position records with
       | some q => get_offset q = .ok st'.offset
       | none => st'.offset = 0) := by
  intro records
  induction records with
  | nil =>
    intro st st' rest h h0
    simp only [processRecords, Except.ok.injEq, Prod.mk.injEq] at h
    obtain ⟨rfl, rfl⟩ := h
    simpa [firstContribQual] using h0
  | cons r rs ih =>
    intro st st' rest h h0
    simp only [processRecords] at h
    simp only [firstContribQual]
    split at h
    · rename_i hbreak
      rw [if_pos hbreak]
      simp only [Except.ok.injEq, Prod.mk.injEq] at h
      obtain ⟨rfl, rfl⟩ := h
      simpa using h0
    · rename_i hbreak
      rw [if_neg hbreak]
      split at h
      · rename_i hskip
        rw [if_pos hskip]
        have := ih _ _ _ h (by simpa using h0)
        simpa using this
      · rename_i hskip
        rw [if_neg hskip]
        split at h
        · exact absurd h (by simp)
        · rename_i off heq
          split at h
          · exact absurd h (by simp)
          · have hne : off ≠ 0 := stickyOffset_ne_zero _ _ _ heq
            have hmono := processRecords_offset_mono E x y rs _ _ _ h (by simpa using hne)
            simp only at hmono
            rw [hmono]
            unfold stickyOffset at heq
            rw [if_pos h0] at heq
            exact heq

theorem qualAvgs_ok (st : ExtractState) (h1 : st.qa.length ≠ 0)
    (h2 : st.qi.length ≠ 0) (h3 : st.qx.length ≠ 0) :
    qualAvgs st = .ok (st.qa.sum / st.qa.length, st.qi.sum / st.qi.length,
      st.qx.sum / st.qx.length) := by
  simp [qualAvgs, pymean_ok _ h1, pymean_ok _ h2, pymean_ok _ h3]

theorem qualAvgs_empty (st : ExtractState) (h : st.qa = []) :
    qualAvgs st = .error .zeroDivision := by
  simp [qualAvgs, h, pymean]

/-- With a single accumulated length, the feature computation of lines
74–84 reaches `stdev` with one data point and fails there: the mean, min,
max and median all succeed first. -/
theorem featureList_single (E : ExternalFuns) (st : ExtractState) (k : Nat)
    (aa ai ax : ℚ) (hk : st.lengths = [k]) :
    featureList E st aa ai ax = .error .statisticsError := by
  simp [featureList, hk, pymean, pymin, pymax, pymedian, pyStdev, pyVariance,
    List.min?, List.max?, List.foldl, pysorted, insertSorted]

theorem map_sub_sum (xs : List ℚ) (c : ℚ) :
    (xs.map (fun v => v - c)).sum = xs.sum - xs.length * c := by
  induction xs with
  | nil => simp
  | cons a as ih =>
    simp only [List.map_cons, List.sum_cons, ih, List.length_cons]
    push_cast
    ring

/-- The mean-corrected sum of squares of `statistics.variance` equals the
plain closed-form sum of squared deviations: the correction term
`(Σ(x − c))² / n` vanishes because the deviations from the exact mean sum
to zero. -/
theorem pyVariance_eq_closed (xs : List ℚ) (h : 2 ≤ xs.length) :
    pyVariance xs = .ok (sampleVarianceClosed xs) := by
  have hn : (xs.length : ℚ) ≠ 0 := by
    have hne : xs.length ≠ 0 := by omega
    exact_mod_cast hne
  have h0 : (xs.map (fun v => v - xs.sum / xs.length)).sum = 0 := by
    rw [map_sub_sum]
    field_simp
  unfold pyVariance sampleVarianceClosed
  rw [if_neg (by omega)]
  rw [h0]
  norm_num

theorem pyStdev_ok (E : ExternalFuns) (xs : List Nat) (h : 2 ≤ xs.length) :
    pyStdev E xs = .ok (E.sqrt (sampleVarianceClosed (xs.map (fun (n : Nat) => (n : ℚ))))) := by
  have h2 : 2 ≤ (xs.map (fun (n : Nat) => (n : ℚ))).length := by
    rw [List.length_map]
    exact h
  unfold pyStdev
  rw [pyVariance_eq_closed _ h2]

/-- C1: the claim (and the program's own `--range` help text, which says
`"0 0"` processes the whole file) requires a zero end bound to disable the
upper limit.  The code instead breaks out of the loop on the very first
record, because `position > y` holds with `y = 0`: on a two-record file
with quality present, nothing accumulates, the loop stops after one
record, and the call raises `ZeroDivisionError` instead of returning the
feature vector with count 2. -/
theorem whole_file_window_breaks_immediately :
    get_file_features E0 [rA, rB] (0, 0) = (.error .zeroDivision, false) ∧
    runLoop E0 [rA, rB] (0, 0) = .ok ({ initState with position := 1 }, [rB]) :=
  ⟨rfl, rfl⟩

/-- C2: the claim says the accession column is present only when `srr` is
requested and that with `srr` off the data row ends with the platform
label.  The code appends `labels[1]` and then `labels[0]` unconditionally
(lines 108–109), so with `srr = false` the row of
`SRR111.illumina.fastq` still has 11 cells and ends with the accession
`SRR111`, not with the platform label; `srr` only gates the
`accession_number` column of the header. -/
theorem accession_always_in_data_row :
    ((get_directory_features E0 (1, 3000) false
        [("SRR111.illumina.fastq", [rA, rB])]).map
      (fun p => ((p.2.headD []).length, (p.2.headD []).getLast?))) =
      .ok (11, some "SRR111") ∧
    headerRow false = HEADER ++ ["label"] ∧
    headerRow true = HEADER ++ ["label", "accession_number"] := by
  refine ⟨?_, rfl, rfl⟩
  with_unfolding_all decide

/-- C3 counterexample: an extraction that fails (here: no record at all, so
zero reads contribute and line 69 raises `ZeroDivisionError`) terminates
with the reader still open — the close flag is `false`, refuting the claim
that the reader is closed on every exit path. -/
theorem reader_not_closed_on_empty_extraction :
    get_file_features E0 ([] : List Record) (1, 3000) = (.error .zeroDivision, false) := rfl

/-- C3 amended: `reader.close()` (line 73) is reached exactly on the paths
that get past the quality averages of line 69 — i.e. when the record loop
succeeds and the quality-average computation succeeds.  On those paths the
reader is closed even if the later statistics (e.g. `stdev`) fail; when
the loop itself raises, or when zero reads contribute, the reader is never
closed and the handle leaks. -/
theorem reader_closed_iff_qual_avgs_succeed (E : ExternalFuns)
    (records : List Record) (positions : Nat × Nat) :
    (get_file_features E records positions).2 = true ↔
      ∃ st rest v, runLoop E records positions = .ok (st, rest) ∧
        qualAvgs st = .ok v := by
  rcases hr : runLoop E records positions with e | ⟨st, rest⟩
  · simp [get_file_features, hr]
  · rcases hq : qualAvgs st with e | v
    · simp [get_file_features, hr, hq]
    · rcases v with ⟨aa, ai, ax⟩
      rcases hf : featureList E st aa ai ax with e | fv
      · simp [get_file_features, hr, hq, hf]
      · simp [get_file_features, hr, hq, hf]

/-- C4: when the loop completes with zero contributing reads, line 69
divides by the length of the empty accumulator and the call exits with an
explicit `ZeroDivisionError` (never a sentinel value, and with the reader
unclosed); and `get_directory_features` has no per-file handler, so any
extraction error on a `.fastq` file aborts the whole directory run with
that error. -/
theorem zero_contrib_error_and_propagates :
    (∀ (E : ExternalFuns) (records : List Record) (positions : Nat × Nat)
        (st : ExtractState) (rest : List Record),
        runLoop E records positions = .ok (st, rest) → st.count = 0 →
        get_file_features E records positions = (.error .zeroDivision, false)) ∧
    (∀ (E : ExternalFuns) (positions : Nat × Nat) (srr : Bool) (fname : String)
        (recs : List Record) (rest : List (String × List Record)) (e : Err),
        fname.endsWith ".fastq" = true →
        (get_file_features E recs positions).1 = .error e →
        get_directory_features E positions srr ((fname, recs) :: rest) = .error e) := by
  constructor
  · intro E records positions st rest h hc
    have h' : processRecords E (normWindow positions).1 (normWindow positions).2
        records initState = .ok (st, rest) := h
    have hinv := processRecords_inv E _ _ records initState st rest h' rfl rfl rfl rfl
    have hqa : st.qa = [] := List.length_eq_zero.mp (by omega)
    have hq := qualAvgs_empty st hqa
    simp [get_file_features, h, hq]
  · intro E positions srr fname recs rest e hend herr
    simp [get_directory_features, hend, herr]

/-- C4 witness: a file with no record errors with `ZeroDivisionError`, and
a directory whose first `.fastq` file errors aborts with that error. -/
theorem zero_contrib_error_and_propagates_witness :
    get_file_features E0 ([] : List Record) (1, 3000) = (.error .zeroDivision, false) ∧
    get_directory_features E0 (1, 3000) false [("a.fastq", ([] : List Record))] =
      .error .zeroDivision := by
  constructor
  · exact zero_contrib_error_and_propagates.1 E0 [] (1, 3000) initState [] rfl rfl
  · exact zero_contrib_error_and_propagates.2 E0 (1, 3000) false "a.fastq" [] []
      .zeroDivision (by with_unfolding_all decide) rfl

/-- C5: with both bounds nonzero and the end below the start, the window is
swapped before use (lines 47–48), so the whole extraction behaves
identically on `(s, e)` and `(e, s)`. -/
theorem window_swap_equiv (E : ExternalFuns) (records : List Record) (s e : Nat)
    (hs : s ≠ 0) (he : e ≠ 0) (hlt : e < s) :
    get_file_features E records (s, e) = get_file_features E records (e, s) := by
  have hw : normWindow (s, e) = normWindow (e, s) := by
    simp only [normWindow]
    rw [if_pos ⟨hs, he, hlt⟩, if_neg (by rintro ⟨-, -, hb⟩; omega)]
  simp only [get_file_features, runLoop, hw]

/-- C5 witness: window (500, 10) behaves exactly like window (10, 500). -/
theorem window_swap_equiv_witness :
    get_file_features E0 ([] : List Record) (500, 10) =
      get_file_features E0 ([] : List Record) (10, 500) :=
  window_swap_equiv E0 [] 500 10 (by decide) (by decide) (by decide)

/-- C6: the encoding offset is sticky — once nonzero it is never changed by
the rest of the loop — and, starting from the initial zero offset, a
successful run ends with exactly `get_offset` of the first contributing
record's quality string (the spec-modelled `get_offset` only returns the
nonzero standard offsets 33 and 64, so the `if not offset` guard can fire
only once); when no record contributes the offset stays 0. -/
theorem offset_determined_once_and_frozen (E : ExternalFuns) (x y : Nat) :
    (∀ (records : List Record) (st st' : ExtractState) (rest : List Record),
        processRecords E x y records st = .ok (st', rest) → st.offset ≠ 0 →
        st'.offset = st.offset) ∧
    (∀ (records : List Record) (st' : ExtractState) (rest : List Record),
        processRecords E x y records initState = .ok (st', rest) →
        (match firstContribQual x y 0 records with
         | some q => get_offset q = .ok st'.offset
         | none => st'.offset = 0)) := by
  constructor
  · exact fun records st st' rest h h0 =>
      processRecords_offset_mono E x y records st st' rest h h0
  · exact fun records st' rest h =>
      processRecords_offset_of_zero E x y records initState st' rest h rfl

/-- C6 witness: on a one-record file the frozen offset is 33, obtained from
the first contributing record. -/
theorem offset_determined_once_and_frozen_witness :
    ((⟨1, 1, 33, [1], [100/41], [100/41], [100/41]⟩ : ExtractState).offset =
      (⟨0, 0, 33, [], [], [], []⟩ : ExtractState).offset) ∧
    (match firstContribQual 1 3000 0 [rC] with
     | some q => get_offset q =
        .ok (⟨1, 1, 33, [1], [100/41], [100/41], [100/41]⟩ : ExtractState).offset
     | none =>
        (⟨1, 1, 33, [1], [100/41], [100/41], [100/41]⟩ : ExtractState).offset = 0) := by
  constructor
  · exact (offset_determined_once_and_frozen E0 1 3000).1 [rC]
      ⟨0, 0, 33, [], [], [], []⟩ ⟨1, 1, 33, [1], [100/41], [100/41], [100/41]⟩ []
      (by with_unfolding_all decide) (by decide)
  · exact (offset_determined_once_and_frozen E0 1 3000).2 [rC]
      ⟨1, 1, 33, [1], [100/41], [100/41], [100/41]⟩ []
      (by with_unfolding_all decide)

/-- C7: when exactly one read contributes, the quality averages of line 69
succeed (one entry in each accumulator), but `stdev` of a single length
(line 79) raises `StatisticsError`: the call fails with a
standard-deviation error instead of returning a feature vector. -/
theorem single_read_stdev_error (E : ExternalFuns) (records : List Record)
    (positions : Nat × Nat) (st : ExtractState) (rest : List Record)
    (h : runLoop E records positions = .ok (st, rest)) (hc : st.count = 1) :
    (get_file_features E records positions).1 = .error .statisticsError := by
  have h' : processRecords E (normWindow positions).1 (normWindow positions).2
      records initState = .ok (st, rest) := h
  obtain ⟨h1, h2, h3, h4⟩ :=
    processRecords_inv E _ _ records initState st rest h' rfl rfl rfl rfl
  obtain ⟨k, hk⟩ := List.length_eq_one.mp (by omega : st.lengths.length = 1)
  have hqa := qualAvgs_ok st (by omega) (by omega) (by omega)
  have hfl : ∀ aa ai ax, featureList E st aa ai ax = .error .statisticsError :=
    fun aa ai ax => featureList_single E st k aa ai ax hk
  simp [get_file_features, h, hqa, hfl]

/-- C7 witness: one record with one quality character contributes exactly
one read, and the extraction fails with `StatisticsError`. -/
theorem single_read_stdev_error_witness :
    (get_file_features E0 [rC] (1, 3000)).1 = .error .statisticsError :=
  single_read_stdev_error E0 [rC] (1, 3000)
    ⟨1, 1, 33, [1], [100/41], [100/41], [100/41]⟩ []
    (by with_unfolding_all decide) rfl

/-- C8: with at least two contributing reads the extraction succeeds, and
the `stddev_length` component (index 4 of the feature vector) is the
square root of the closed-form Bessel-corrected sample variance — the sum
of squared deviations from the mean divided by `n − 1` — of the
accumulated lengths. -/
theorem stddev_matches_closed_form (E : ExternalFuns) (records : List Record)
    (positions : Nat × Nat) (st : ExtractState) (rest : List Record)
    (h : runLoop E records positions = .ok (st, rest)) (hc : 2 ≤ st.count) :
    ∃ fv, (get_file_features E records positions).1 = .ok (fv, st.count) ∧
      fv[4]? = some (E.sqrt (sampleVarianceClosed
        (st.lengths.map (fun (n : Nat) => (n : ℚ))))) := by
  have h' : processRecords E (normWindow positions).1 (normWindow positions).2
      records initState = .ok (st, rest) := h
  obtain ⟨h1, h2, h3, h4⟩ :=
    processRecords_inv E _ _ records initState st rest h' rfl rfl rfl rfl
  have hqa := qualAvgs_ok st (by omega) (by omega) (by omega)
  have hml : (st.lengths.map (fun (n : Nat) => (n : ℚ))).length ≠ 0 := by
    rw [List.length_map]
    omega
  obtain ⟨mn, hmn⟩ := pymin_ok st.lengths (by omega)
  obtain ⟨mx, hmx⟩ := pymax_ok st.lengths (by omega)
  obtain ⟨md, hmd⟩ := pymedian_ok st.lengths (by omega)
  have hsd := pyStdev_ok E st.lengths (by omega)
  have hfl : featureList E st (st.qa.sum / st.qa.length) (st.qi.sum / st.qi.length)
      (st.qx.sum / st.qx.length) =
      .ok [(st.lengths.map (fun (n : Nat) => (n : ℚ))).sum /
            (st.lengths.map (fun (n : Nat) => (n : ℚ))).length,
           (mn : ℚ), (mx : ℚ), md,
           E.sqrt (sampleVarianceClosed (st.lengths.map (fun (n : Nat) => (n : ℚ)))),
           E.skew st.lengths, st.qa.sum / st.qa.length, st.qi.sum / st.qi.length,
           st.qx.sum / st.qx.length] := by
    simp only [featureList, pymean_ok _ hml, hmn, hmx, hmd, hsd]
  refine ⟨[(st.lengths.map (fun (n : Nat) => (n : ℚ))).sum /
            (st.lengths.map (fun (n : Nat) => (n : ℚ))).length,
           (mn : ℚ), (mx : ℚ), md,
           E.sqrt (sampleVarianceClosed (st.lengths.map (fun (n : Nat) => (n : ℚ)))),
           E.skew st.lengths, st.qa.sum / st.qa.length, st.qi.sum / st.qi.length,
           st.qx.sum / st.qx.length], ?_, ?_⟩
  · simp [get_file_features, h, hqa, hfl]
  · rfl

/-- C8 witness: two contributing reads of lengths 4 and 5. -/
theorem stddev_matches_closed_form_witness :
    ∃ fv, (get_file_features E0 [rA, rB] (1, 3000)).1 =
        .ok (fv, (⟨2, 2, 33, [4, 5], [100/41, 100/41], [100/41, 100/41],
          [100/41, 100/41]⟩ : ExtractState).count) ∧
      fv[4]? = some (E0.sqrt (sampleVarianceClosed
        ((⟨2, 2, 33, [4, 5], [100/41, 100/41], [100/41, 100/41],
          [100/41, 100/41]⟩ : ExtractState).lengths.map (fun (n : Nat) => (n : ℚ))))) :=
  stddev_matches_closed_form E0 [rA, rB] (1, 3000)
    ⟨2, 2, 33, [4, 5], [100/41, 100/41], [100/41, 100/41], [100/41, 100/41]⟩ []
    (by with_unfolding_all decide) (by decide)

/-- C9: throughout the loop — from any state satisfying it, so in
particular after every processed record of a run started at `initState`,
which satisfies it trivially — the contributing-read count equals the
number of entries in the length accumulator and in each of the three
quality accumulators. -/
theorem count_matches_accumulators (E : ExternalFuns) (x y : Nat)
    (records : List Record) (st st' : ExtractState) (rest : List Record)
    (h : processRecords E x y records st = .ok (st', rest))
    (h1 : st.count = st.lengths.length) (h2 : st.count = st.qa.length)
    (h3 : st.count = st.qi.length) (h4 : st.count = st.qx.length) :
    st'.count = st'.lengths.length ∧ st'.count = st'.qa.length ∧
      st'.count = st'.qi.length ∧ st'.count = st'.qx.length :=
  processRecords_inv E x y records st st' rest h h1 h2 h3 h4

/-- C9 witness: the invariant after a two-record run from the initial
state. -/
theorem count_matches_accumulators_witness :
    (⟨2, 2, 33, [4, 5], [100/41, 100/41], [100/41, 100/41],
        [100/41, 100/41]⟩ : ExtractState).count =
      (⟨2, 2, 33, [4, 5], [100/41, 100/41], [100/41, 100/41],
        [100/41, 100/41]⟩ : ExtractState).lengths.length ∧
    (⟨2, 2, 33, [4, 5], [100/41, 100/41], [100/41, 100/41],
        [100/41, 100/41]⟩ : ExtractState).count =
      (⟨2, 2, 33, [4, 5], [100/41, 100/41], [100/41, 100/41],
        [100/41, 100/41]⟩ : ExtractState).qa.length ∧
    (⟨2, 2, 33, [4, 5], [100/41, 100/41], [100/41, 100/41],
        [100/41, 100/41]⟩ : ExtractState).count =
      (⟨2, 2, 33, [4, 5], [100/41, 100/41], [100/41, 100/41],
        [100/41, 100/41]⟩ : ExtractState).qi.length ∧
    (⟨2, 2, 33, [4, 5], [100/41, 100/41], [100/41, 100/41],
        [100/41, 100/41]⟩ : ExtractState).count =
      (⟨2, 2, 33, [4, 5], [100/41, 100/41], [100/41, 100/41],
        [100/41, 100/41]⟩ : ExtractState).qx.length :=
  count_matches_accumulators E0 1 3000 [rA, rB] initState
    ⟨2, 2, 33, [4, 5], [100/41, 100/41], [100/41, 100/41], [100/41, 100/41]⟩ []
    (by with_unfolding_all decide) rfl rfl rfl rfl

/-- C10: a window whose end bound is 0 is never swapped (the swap needs both
bounds nonzero), the loop breaks on the very first record because
`position > 0`, so at most one record is consumed, nothing accumulates,
and the call always exits with `ZeroDivisionError` from line 69 — it never
returns a feature vector. -/
theorem zero_end_bound_consumes_one_and_errors (E : ExternalFuns) (x : Nat)
    (records : List Record) :
    get_file_features E records (x, 0) = (.error .zeroDivision, false) ∧
    runLoop E records (x, 0) =
      .ok ({ initState with position := min 1 records.length }, records.drop 1) := by
  have hw : normWindow (x, 0) = (x, 0) := by
    simp [normWindow]
  have hrun : runLoop E records (x, 0) =
      .ok ({ initState with position := min 1 records.length }, records.drop 1) := by
    cases records with
    | nil => simp [runLoop, hw, processRecords, initState]
    | cons r rs =>
      have h1 : min 1 (r :: rs).length = 1 := by
        simp only [List.length_cons]
        omega
      simp [runLoop, hw, processRecords, initState, h1]
  refine ⟨?_, hrun⟩
  rcases records with - | ⟨r, rs⟩ <;>
    simp [get_file_features, hrun, qualAvgs, pymean, initState]

end PredictPlatform
